import Mathlib

/-!
Shallow embedding of the subscription escrow validator from
src/onchain/contract.py and src/onchain/utils.py, together with the
interval primitives of the opshin ledger library they call into
(compare, compare_extended, get_bool).  Times and quantities are the
unbounded integers of the source language.
-/

namespace Onchain

/-- Public key hashes, policy ids and token names are opaque byte strings;
only equality on them is ever used. -/
abbrev PubKeyHash := String

abbrev PolicyId := String

abbrev TokenName := String

/-- An asset identifier: policy id plus token name. -/
structure Token where
  policy_id : PolicyId
  token_name : TokenName
deriving DecidableEq

/-- A finite POSIX timestamp in milliseconds, wrapping an integer `time`. -/
structure FinitePOSIXTime where
  time : Int
deriving DecidableEq

/-- The extended time line: negative infinity, a finite time, or positive
infinity (the three constructors of the ledger union type). -/
inductive ExtendedPOSIXTime where
  | negInf : ExtendedPOSIXTime
  | finite : FinitePOSIXTime → ExtendedPOSIXTime
  | posInf : ExtendedPOSIXTime
deriving DecidableEq

/-- Ledger-encoded booleans (TrueData / FalseData constructors). -/
inductive BoolData where
  | falseData : BoolData
  | trueData : BoolData
deriving DecidableEq

/-- Conversion of a ledger boolean to a native boolean. -/
def get_bool : BoolData → Bool
  | .trueData => true
  | .falseData => false

/-- An upper bound of a time interval: an extended instant plus a closedness
flag. -/
structure UpperBoundPOSIXTime where
  limit : ExtendedPOSIXTime
  closed : BoolData
deriving DecidableEq

/-- A lower bound of a time interval: an extended instant plus a closedness
flag. -/
structure LowerBoundPOSIXTime where
  limit : ExtendedPOSIXTime
  closed : BoolData
deriving DecidableEq

/-- A transaction validity interval: lower and upper bound. -/
structure POSIXTimeRange where
  lower_bound : LowerBoundPOSIXTime
  upper_bound : UpperBoundPOSIXTime
deriving DecidableEq

/-- Integer comparison of the ledger library: 1 when a is smaller, 0 when
equal, -1 when greater. -/
def compare (a b : Int) : Int :=
  if a < b then 1 else if a = b then 0 else -1

/-- Rank of an extended instant (negative infinity below all finite times,
positive infinity above). -/
def compare_extended_helper : ExtendedPOSIXTime → Int
  | .negInf => -1
  | .finite _ => 0
  | .posInf => 1

/-- Comparison of two extended instants by value: both finite instants are
compared by their times, otherwise by rank. -/
def compare_extended : ExtendedPOSIXTime → ExtendedPOSIXTime → Int
  | .finite a, .finite b => compare a.time b.time
  | a, b => compare (compare_extended_helper a) (compare_extended_helper b)

/-- src/onchain/utils.py, compare_upper_lower_bound: compare an upper bound a
against a lower bound b; on equal instants the tie breaks to "equal" (0) only
when both bounds are closed, and to "less" (1) otherwise. -/
def compare_upper_lower_bound (a : UpperBoundPOSIXTime) (b : LowerBoundPOSIXTime) : Int :=
  let result := compare_extended a.limit b.limit
  if result = 0 then
    let a_closed := get_bool a.closed
    let b_closed := get_bool b.closed
    if a_closed && b_closed then 0 else 1
  else result

/-- src/onchain/utils.py, after_ext: whether all of the interval a lies after
the instant b, treating b as a closed upper bound. -/
def after_ext (a : POSIXTimeRange) (b : ExtendedPOSIXTime) : Bool :=
  compare_upper_lower_bound ⟨b, .trueData⟩ a.lower_bound = 1

/-- The subscription state record locked with the contract output
(src/onchain/contract.py, SubscriptionDatum). -/
structure SubscriptionDatum where
  owner_pubkeyhash : PubKeyHash
  model_owner_pubkeyhash : PubKeyHash
  next_payment_date : FinitePOSIXTime
  payment_intervall : Int
  payment_amount : Int
  payment_token : Token
  is_paused : Bool
  pause_start_time : FinitePOSIXTime
deriving DecidableEq

/-- The redeemer union of src/onchain/contract.py: UnlockPayment with input
and output indices, UpdateSubscription, and PauseResumeSubscription with a
pause flag. -/
inductive PaymentRedeemer where
  | UnlockPayment (input_index : Nat) (output_index : Nat) : PaymentRedeemer
  | UpdateSubscription : PaymentRedeemer
  | PauseResumeSubscription (pause : Bool) : PaymentRedeemer
deriving DecidableEq

/-- Inner level of a ledger value: token name to quantity. -/
abbrev TokenNameMap := List (TokenName × Int)

/-- A ledger value: policy id to token-name map. -/
abbrev Value := List (PolicyId × TokenNameMap)

/-- Dictionary lookup with a default, the get method of ledger maps. -/
def dictGet {β : Type} (m : List (String × β)) (k : String) (d : β) : β :=
  match m.find? (fun p => p.1 = k) with
  | some p => p.2
  | none => d

/-- A datum resolvable from a transaction output: either a subscription
datum or some other inline data (tagged by a number). -/
inductive OutputDatum where
  | sub : SubscriptionDatum → OutputDatum
  | other : Nat → OutputDatum
deriving DecidableEq

/-- A transaction output: its value and its attached datum, when any. -/
structure TxOut where
  value : Value
  datum : Option OutputDatum
deriving DecidableEq

/-- A transaction input, carrying the output it consumes. -/
structure TxInInfo where
  resolved : TxOut
deriving DecidableEq

/-- The transaction snapshot the validator reads: inputs, outputs, signer
set and validity interval. -/
structure TxInfo where
  inputs : List TxInInfo
  outputs : List TxOut
  signatories : List PubKeyHash
  valid_range : POSIXTimeRange
deriving DecidableEq

/-- The script purpose of the invocation; only Spending is accepted. -/
inductive ScriptPurpose where
  | Spending : ScriptPurpose
  | Minting : ScriptPurpose
  | Rewarding : ScriptPurpose
  | Certifying : ScriptPurpose
deriving DecidableEq

/-- The script context handed to the validator: snapshot plus purpose. -/
structure ScriptContext where
  tx_info : TxInfo
  purpose : ScriptPurpose
deriving DecidableEq

/-- src/onchain/contract.py, amount_of_token_in_output: quantity of the token
in the value of the output, with nested dictionary defaults. -/
def amount_of_token_in_output (token : Token) (output : TxOut) : Int :=
  dictGet (dictGet output.value token.policy_id [("", 0)]) token.token_name 0

/-- The ledger helper resolve_datum_unsafe: yields the datum attached to the
output (hash indirection through the transaction data map is modelled as the
already-resolved datum), none when the output carries no datum, in which
case the source raises and the transaction is rejected. -/
def resolve_datum_unsafe (output : TxOut) (_tx_info : TxInfo) : Option OutputDatum :=
  output.datum

/-- The distinct rejection reasons, one per assert or raising primitive of
the source validator. -/
inductive Reason where
  | WrongInvocationKind : Reason
  | MissingOwnerSignature : Reason
  | MissingModelOwnerSignature : Reason
  | SubscriptionPaused : Reason
  | PaymentNotYetDue : Reason
  | InsufficientFundsReturned : Reason
  | AlreadyPaused : Reason
  | NotPaused : Reason
  | SuccessorMismatch : Reason
  | FundsChanged : Reason
  | IndexOutOfRange : Reason
  | MissingDatum : Reason
  | NonFiniteBound : Reason
deriving DecidableEq

/-- The finite time of the lower bound of the validity interval.  The source
reads tx_info.valid_range.valid_range.lower_bound.time on the pause and
resume path; this is modelled as the time of the finite lower-bound instant,
unavailable (a rejecting attribute failure) when the bound is not finite. -/
def POSIXTimeRange.lowerBoundTime (r : POSIXTimeRange) : Option Int :=
  match r.lower_bound.limit with
  | .finite f => some f.time
  | _ => none

/-- The successor datum the UnlockPayment branch computes (source lines
102-115): identical to datum except next_payment_date advanced by
payment_intervall.  The source builds this record and resolves the output
datum but never compares the two. -/
def unlock_expected_datum (datum : SubscriptionDatum) : SubscriptionDatum :=
  { owner_pubkeyhash := datum.owner_pubkeyhash
    model_owner_pubkeyhash := datum.model_owner_pubkeyhash
    next_payment_date := ⟨datum.next_payment_date.time + datum.payment_intervall⟩
    payment_intervall := datum.payment_intervall
    payment_amount := datum.payment_amount
    payment_token := datum.payment_token
    is_paused := datum.is_paused
    pause_start_time := datum.pause_start_time }

/-- The successor datum the pause branch requires (source lines 137-146):
datum with is_paused set and pause_start_time set to the current lower-bound
time. -/
def pause_expected_datum (datum : SubscriptionDatum) (current_time : Int) : SubscriptionDatum :=
  { owner_pubkeyhash := datum.owner_pubkeyhash
    model_owner_pubkeyhash := datum.model_owner_pubkeyhash
    next_payment_date := datum.next_payment_date
    payment_intervall := datum.payment_intervall
    payment_amount := datum.payment_amount
    payment_token := datum.payment_token
    is_paused := true
    pause_start_time := ⟨current_time⟩ }

/-- The successor datum the resume branch requires (source lines 150-166):
datum with is_paused cleared, pause_start_time reset to 0 and
next_payment_date extended by the pause duration. -/
def resume_expected_datum (datum : SubscriptionDatum) (current_time : Int) : SubscriptionDatum :=
  { owner_pubkeyhash := datum.owner_pubkeyhash
    model_owner_pubkeyhash := datum.model_owner_pubkeyhash
    next_payment_date := ⟨datum.next_payment_date.time + (current_time - datum.pause_start_time.time)⟩
    payment_intervall := datum.payment_intervall
    payment_amount := datum.payment_amount
    payment_token := datum.payment_token
    is_paused := false
    pause_start_time := ⟨0⟩ }

/-- The UpdateSubscription branch (source lines 68-73): only the owner
signature is checked. -/
def validateUpdate (datum : SubscriptionDatum) (tx_info : TxInfo) : Except Reason Unit :=
  if datum.owner_pubkeyhash ∈ tx_info.signatories then .ok ()
  else .error .MissingOwnerSignature

/-- The UnlockPayment branch (source lines 75-116): fetch the indexed input
and output, check model-owner signature, not-paused, due date behind the
validity window, and the strict funds lower bound; resolve the output datum
without comparing it to the computed successor. -/
def validateUnlock (datum : SubscriptionDatum) (input_index output_index : Nat)
    (tx_info : TxInfo) : Except Reason Unit :=
  match tx_info.inputs.get? input_index with
  | none => .error .IndexOutOfRange
  | some own_input =>
    match tx_info.outputs.get? output_index with
    | none => .error .IndexOutOfRange
    | some own_output =>
      if datum.model_owner_pubkeyhash ∈ tx_info.signatories then
        if datum.is_paused then .error .SubscriptionPaused
        else
          if after_ext tx_info.valid_range (.finite datum.next_payment_date) then
            let input_amount := amount_of_token_in_output datum.payment_token own_input.resolved
            let output_amount := amount_of_token_in_output datum.payment_token own_output
            let min_amount := input_amount - datum.payment_amount
            if output_amount > min_amount then
              match resolve_datum_unsafe own_output tx_info with
              | none => .error .MissingDatum
              | some _ => .ok ()
            else .error .InsufficientFundsReturned
          else .error .PaymentNotYetDue
      else .error .MissingModelOwnerSignature

/-- The shared tail of the pause and resume branches (source lines 168-175):
the resolved output datum must equal the expected successor and the token
quantity must be unchanged between first input and first output. -/
def checkSuccessor (new_subscription_datum : SubscriptionDatum) (datum : SubscriptionDatum)
    (own_input : TxInInfo) (own_output : TxOut) (tx_info : TxInfo) : Except Reason Unit :=
  match resolve_datum_unsafe own_output tx_info with
  | none => .error .MissingDatum
  | some output_datum =>
    if output_datum = OutputDatum.sub new_subscription_datum then
      if amount_of_token_in_output datum.payment_token own_input.resolved =
          amount_of_token_in_output datum.payment_token own_output then .ok ()
      else .error .FundsChanged
    else .error .SuccessorMismatch

/-- The PauseResumeSubscription branch (source lines 118-175): model-owner
signature, first input and output, lower-bound time, pause or resume guard
and expected successor, then the shared successor checks. -/
def validatePauseResume (datum : SubscriptionDatum) (pause : Bool)
    (tx_info : TxInfo) : Except Reason Unit :=
  if datum.model_owner_pubkeyhash ∈ tx_info.signatories then
    match tx_info.inputs.get? 0 with
    | none => .error .IndexOutOfRange
    | some own_input =>
      match tx_info.outputs.get? 0 with
      | none => .error .IndexOutOfRange
      | some own_output =>
        match tx_info.valid_range.lowerBoundTime with
        | none => .error .NonFiniteBound
        | some current_time =>
          if pause then
            if datum.is_paused then .error .AlreadyPaused
            else checkSuccessor (pause_expected_datum datum current_time) datum
              own_input own_output tx_info
          else
            if datum.is_paused then
              checkSuccessor (resume_expected_datum datum current_time) datum
                own_input own_output tx_info
            else .error .NotPaused
  else .error .MissingModelOwnerSignature

deriving instance DecidableEq for Except

/-- src/onchain/contract.py, validator: reject non-spending invocations, then
dispatch on the redeemer tag. -/
def validator (datum : SubscriptionDatum) (redeemer : PaymentRedeemer)
    (context : ScriptContext) : Except Reason Unit :=
  if context.purpose = ScriptPurpose.Spending then
    match redeemer with
    | .UnlockPayment input_index output_index =>
        validateUnlock datum input_index output_index context.tx_info
    | .UpdateSubscription => validateUpdate datum context.tx_info
    | .PauseResumeSubscription pause => validatePauseResume datum pause context.tx_info
  else .error .WrongInvocationKind

/-! Concrete sample data used by witnesses and counterexamples. -/

/-- A sample asset identifier. -/
def sampleToken : Token := ⟨"p", "t"⟩

/-- An output holding a quantity of the sample token plus a datum. -/
def tokenOut (q : Int) (d : Option OutputDatum) : TxOut := ⟨[("p", [("t", q)])], d⟩

/-- A baseline unpaused subscription datum. -/
def baseDatum : SubscriptionDatum :=
  { owner_pubkeyhash := "o", model_owner_pubkeyhash := "m"
    next_payment_date := ⟨1000⟩, payment_intervall := 604800000
    payment_amount := 1000000, payment_token := sampleToken
    is_paused := false, pause_start_time := ⟨0⟩ }

/-- A validity interval with closed finite lower bound t and open infinite
upper bound. -/
def rangeFrom (t : Int) : POSIXTimeRange := ⟨⟨.finite ⟨t⟩, .trueData⟩, ⟨.posInf, .trueData⟩⟩

/-- A spending snapshot with one input, one output and one signer. -/
def mkCtx (inQty outQty : Int) (outDatum : Option OutputDatum)
    (signer : PubKeyHash) (lb : Int) : ScriptContext :=
  { tx_info :=
    { inputs := [⟨tokenOut inQty none⟩]
      outputs := [tokenOut outQty outDatum]
      signatories := [signer]
      valid_range := rangeFrom lb }
    purpose := .Spending }

/-! Helper lemmas. -/

theorem compare_eq_zero_iff (a b : Int) : compare a b = 0 ↔ a = b := by
  unfold compare
  split
  · omega
  · split <;> omega

theorem compare_extended_eq_zero_iff (a b : ExtendedPOSIXTime) :
    compare_extended a b = 0 ↔ a = b := by
  cases a <;> cases b <;>
    try simp [compare_extended, compare_extended_helper, compare]
  rename_i f g
  obtain ⟨ft⟩ := f
  obtain ⟨gt⟩ := g
  simp only [compare_extended, ExtendedPOSIXTime.finite.injEq, FinitePOSIXTime.mk.injEq]
  split
  · omega
  · split <;> omega

/-! Claim theorems. -/

/-- C3: compare_upper_lower_bound decides by instant value when the instants
differ, returns equal (0) on equal instants only when both bounds are closed
and less (1) otherwise; after_ext holds exactly when that comparison of the
instant as a closed upper bound against the lower bound yields less; and an
UnlockPayment that passes every earlier guard is rejected as not yet due when
the validity interval is the doubly closed point interval at the due time. -/
theorem C3_bound_comparison :
    (∀ (a : UpperBoundPOSIXTime) (b : LowerBoundPOSIXTime),
      (a.limit ≠ b.limit →
        compare_upper_lower_bound a b = compare_extended a.limit b.limit ∧
        compare_upper_lower_bound a b ≠ 0) ∧
      (a.limit = b.limit → get_bool a.closed = true → get_bool b.closed = true →
        compare_upper_lower_bound a b = 0) ∧
      (a.limit = b.limit → (get_bool a.closed = false ∨ get_bool b.closed = false) →
        compare_upper_lower_bound a b = 1)) ∧
    (∀ (a : POSIXTimeRange) (b : ExtendedPOSIXTime),
      after_ext a b = true ↔
        compare_upper_lower_bound ⟨b, BoolData.trueData⟩ a.lower_bound = 1) ∧
    (∀ (T : Int) (d : SubscriptionDatum) (tx : TxInfo)
       (ii oi : Nat) (inp : TxInInfo) (out : TxOut),
      tx.inputs.get? ii = some inp →
      tx.outputs.get? oi = some out →
      d.model_owner_pubkeyhash ∈ tx.signatories →
      d.is_paused = false →
      d.next_payment_date = ⟨T⟩ →
      tx.valid_range = ⟨⟨.finite ⟨T⟩, .trueData⟩, ⟨.finite ⟨T⟩, .trueData⟩⟩ →
      validator d (.UnlockPayment ii oi) ⟨tx, .Spending⟩ =
        .error .PaymentNotYetDue) := by
  refine ⟨?_, ?_, ?_⟩
  · intro a b
    refine ⟨?_, ?_, ?_⟩
    · intro hne
      have h0 : compare_extended a.limit b.limit ≠ 0 := by
        rw [Ne, compare_extended_eq_zero_iff]; exact hne
      unfold compare_upper_lower_bound
      rw [if_neg h0]
      exact ⟨rfl, h0⟩
    · intro heq ha hb
      have h0 : compare_extended a.limit b.limit = 0 :=
        (compare_extended_eq_zero_iff _ _).mpr heq
      unfold compare_upper_lower_bound
      rw [if_pos h0, ha, hb]
      rfl
    · intro heq hopen
      have h0 : compare_extended a.limit b.limit = 0 :=
        (compare_extended_eq_zero_iff _ _).mpr heq
      unfold compare_upper_lower_bound
      rw [if_pos h0]
      rcases hopen with h | h <;> rw [h] <;> simp
  · intro a b
    simp [after_ext]
  · intro T d tx ii oi inp out hin hout hsig hpause hnext hvr
    have hafter : after_ext tx.valid_range (.finite d.next_payment_date) = false := by
      rw [hvr, hnext]
      simp [after_ext, compare_upper_lower_bound, compare_extended, compare, get_bool]
    unfold validator
    rw [if_pos rfl]
    unfold validateUnlock
    simp only [hin, hout, if_pos hsig, hpause, Bool.false_eq_true, if_neg, ite_false, hafter]

/-- One-input one-output snapshot whose validity interval is the doubly
closed point interval at time 1000, the due time of baseDatum. -/
def C3tx : TxInfo :=
  { inputs := [⟨tokenOut 5000000 none⟩]
    outputs := [tokenOut 5000000 (some (.other 0))]
    signatories := ["m"]
    valid_range := ⟨⟨.finite ⟨1000⟩, .trueData⟩, ⟨.finite ⟨1000⟩, .trueData⟩⟩ }

theorem C3_bound_comparison_witness :
    validator baseDatum (.UnlockPayment 0 0) ⟨C3tx, .Spending⟩ =
      .error .PaymentNotYetDue :=
  C3_bound_comparison.2.2 1000 baseDatum C3tx 0 0 ⟨tokenOut 5000000 none⟩
    (tokenOut 5000000 (some (.other 0)))
    (by decide) (by decide) (by decide) (by decide) (by decide) (by decide)

/-- C8: for every datum, action and snapshot whose purpose is not a spend,
the validator rejects with the distinct reason WrongInvocationKind, before
any action-specific guard can fire. -/
theorem C8_wrong_invocation (d : SubscriptionDatum) (r : PaymentRedeemer)
    (ctx : ScriptContext) (h : ctx.purpose ≠ ScriptPurpose.Spending) :
    validator d r ctx = .error .WrongInvocationKind := by
  unfold validator
  rw [if_neg h]

/-- A minting invocation snapshot. -/
def C8ctx : ScriptContext :=
  { tx_info := (mkCtx 5000000 5000000 none "o" 0).tx_info, purpose := .Minting }

theorem C8_wrong_invocation_witness :
    validator baseDatum .UpdateSubscription C8ctx = .error .WrongInvocationKind :=
  C8_wrong_invocation baseDatum .UpdateSubscription C8ctx (by decide)

/-- A snapshot on which every UnlockPayment guard passes but the successor
output carries the unchanged datum baseDatum. -/
def C1ctx : ScriptContext := mkCtx 5000000 5000000 (some (.sub baseDatum)) "m" 2000

/-- C1: the validator accepts an UnlockPayment whose successor output
carries the unchanged current datum, although the successor the source
computes (and its positive payment_intervall) requires next_payment_date to
advance: the equality of the attached datum with the computed successor is
never asserted, contradicting the source comments at lines 102 and 105. -/
theorem C1_unlock_datum_not_enforced :
    validator baseDatum (.UnlockPayment 0 0) C1ctx = .ok () ∧
    (C1ctx.tx_info.outputs.get? 0).map TxOut.datum =
      some (some (.sub baseDatum)) ∧
    OutputDatum.sub baseDatum ≠ .sub (unlock_expected_datum baseDatum) ∧
    0 < baseDatum.payment_intervall := by decide

/-- An accepted UnlockPayment snapshot whose successor output holds strictly
more of the payment asset than the consumed input did. -/
def C2cexCtx : ScriptContext := mkCtx 5000000 6000000 (some (.other 0)) "m" 2000

/-- C2 counterexample: the validator accepts an UnlockPayment although the
successor quantity 6000000 exceeds the input quantity 5000000, refuting the
claimed upper bound outputQty less or equal inputQty. -/
theorem C2_upper_bound_fails :
    validator baseDatum (.UnlockPayment 0 0) C2cexCtx = .ok () ∧
    (C2cexCtx.tx_info.outputs.get? 0).map
      (amount_of_token_in_output baseDatum.payment_token) = some 6000000 ∧
    (C2cexCtx.tx_info.inputs.get? 0).map
      (fun i => amount_of_token_in_output baseDatum.payment_token i.resolved) =
        some 5000000 ∧
    ¬ ((6000000 : Int) ≤ 5000000) := by decide

/-- Inversion of the UnlockPayment branch: acceptance implies each guard of
the source held. -/
theorem validateUnlock_ok_inversion (d : SubscriptionDatum) (ii oi : Nat)
    (tx : TxInfo) (inp : TxInInfo) (out : TxOut)
    (hin : tx.inputs.get? ii = some inp)
    (hout : tx.outputs.get? oi = some out)
    (h : validateUnlock d ii oi tx = .ok ()) :
    d.model_owner_pubkeyhash ∈ tx.signatories ∧
    d.is_paused = false ∧
    after_ext tx.valid_range (.finite d.next_payment_date) = true ∧
    amount_of_token_in_output d.payment_token out >
      amount_of_token_in_output d.payment_token inp.resolved - d.payment_amount := by
  simp only [validateUnlock, hin, hout] at h
  split at h
  · rename_i hsig
    split at h
    · exact Except.noConfusion h
    · rename_i hpause
      split at h
      · rename_i hafter
        split at h
        · rename_i hamt
          exact ⟨hsig, by simpa using hpause, hafter, hamt⟩
        · exact Except.noConfusion h
      · exact Except.noConfusion h
  · exact Except.noConfusion h

/-- C2 amended: for every accepted UnlockPayment, the successor quantity is
at least inputQty - payment_amount + 1; the source enforces no upper bound
relative to inputQty. -/
theorem C2_conservation_lower (d : SubscriptionDatum) (ii oi : Nat)
    (ctx : ScriptContext) (inp : TxInInfo) (out : TxOut)
    (hin : ctx.tx_info.inputs.get? ii = some inp)
    (hout : ctx.tx_info.outputs.get? oi = some out)
    (hacc : validator d (.UnlockPayment ii oi) ctx = .ok ()) :
    amount_of_token_in_output d.payment_token out ≥
      amount_of_token_in_output d.payment_token inp.resolved - d.payment_amount + 1 := by
  have h : validateUnlock d ii oi ctx.tx_info = .ok () := by
    unfold validator at hacc
    split at hacc
    · exact hacc
    · exact Except.noConfusion hacc
  have hi := validateUnlock_ok_inversion d ii oi ctx.tx_info inp out hin hout h
  omega

/-- An accepted UnlockPayment snapshot returning 4000001 of 5000000. -/
def C2wCtx : ScriptContext := mkCtx 5000000 4000001 (some (.other 0)) "m" 2000

theorem C2_conservation_lower_witness :
    amount_of_token_in_output baseDatum.payment_token
        (tokenOut 4000001 (some (.other 0))) ≥
      amount_of_token_in_output baseDatum.payment_token
        (TxInInfo.mk (tokenOut 5000000 none)).resolved -
        baseDatum.payment_amount + 1 :=
  C2_conservation_lower baseDatum 0 0 C2wCtx ⟨tokenOut 5000000 none⟩
    (tokenOut 4000001 (some (.other 0))) (by decide) (by decide) (by decide)

/-- A paused datum whose pause started at time 1000. -/
def C10d : SubscriptionDatum :=
  { baseDatum with is_paused := true, pause_start_time := ⟨1000⟩ }

/-- A resume snapshot whose validity lower bound 500 is strictly before the
pause start 1000, with matching successor datum and equal quantities. -/
def C10ctx : ScriptContext :=
  mkCtx 5000000 5000000 (some (.sub (resume_expected_datum C10d 500))) "m" 500

/-- C10: the resume path accepts a validity lower bound strictly before
pause_start_time, and the successor next_payment_date then moves strictly
backwards (elapsed is negative). -/
theorem C10_resume_unconstrained :
    C10d.is_paused = true ∧
    C10d.pause_start_time.time = 1000 ∧
    C10ctx.tx_info.valid_range.lowerBoundTime = some 500 ∧
    (500 : Int) < C10d.pause_start_time.time ∧
    validator C10d (.PauseResumeSubscription false) C10ctx = .ok () ∧
    (C10ctx.tx_info.outputs.get? 0).map TxOut.datum =
      some (some (.sub (resume_expected_datum C10d 500))) ∧
    (resume_expected_datum C10d 500).next_payment_date.time <
      C10d.next_payment_date.time := by decide

/-- Inversion of the shared successor checks of the pause and resume
branches. -/
theorem checkSuccessor_ok_inversion (nd d : SubscriptionDatum) (inp : TxInInfo)
    (out : TxOut) (tx : TxInfo)
    (h : checkSuccessor nd d inp out tx = .ok ()) :
    out.datum = some (.sub nd) ∧
    amount_of_token_in_output d.payment_token inp.resolved =
      amount_of_token_in_output d.payment_token out := by
  unfold checkSuccessor resolve_datum_unsafe at h
  split at h
  · exact Except.noConfusion h
  · rename_i od heq
    split at h
    · rename_i hdeq
      split at h
      · rename_i hamt
        subst hdeq
        exact ⟨heq, hamt⟩
      · exact Except.noConfusion h
    · exact Except.noConfusion h

/-- Inversion of the pause and resume branch: acceptance implies each guard
of the source held and the successor shape is the expected one. -/
theorem validatePauseResume_ok_inversion (d : SubscriptionDatum) (p : Bool)
    (tx : TxInfo) (h : validatePauseResume d p tx = .ok ()) :
    d.model_owner_pubkeyhash ∈ tx.signatories ∧
    ∃ inp out t,
      tx.inputs.get? 0 = some inp ∧
      tx.outputs.get? 0 = some out ∧
      tx.valid_range.lowerBoundTime = some t ∧
      ((p = true ∧ d.is_paused = false ∧
          out.datum = some (.sub (pause_expected_datum d t))) ∨
        (p = false ∧ d.is_paused = true ∧
          out.datum = some (.sub (resume_expected_datum d t)))) ∧
      amount_of_token_in_output d.payment_token inp.resolved =
        amount_of_token_in_output d.payment_token out := by
  unfold validatePauseResume at h
  split at h
  · rename_i hsig
    split at h
    · exact Except.noConfusion h
    · rename_i inp hin
      split at h
      · exact Except.noConfusion h
      · rename_i out hout
        split at h
        · exact Except.noConfusion h
        · rename_i t ht
          split at h
          · rename_i hp
            split at h
            · exact Except.noConfusion h
            · rename_i hnp
              obtain ⟨hd, hq⟩ := checkSuccessor_ok_inversion _ _ _ _ _ h
              exact ⟨hsig, inp, out, t, hin, hout, ht,
                Or.inl ⟨hp, by simpa using hnp, hd⟩, hq⟩
          · rename_i hp
            split at h
            · rename_i hpp
              obtain ⟨hd, hq⟩ := checkSuccessor_ok_inversion _ _ _ _ _ h
              exact ⟨hsig, inp, out, t, hin, hout, ht,
                Or.inr ⟨by simpa using hp, hpp, hd⟩, hq⟩
            · exact Except.noConfusion h
  · exact Except.noConfusion h

/-- C5: every accepted pause carries a successor output whose datum is the
current datum with is_paused set and pause_start_time set to the validity
lower bound, all other fields unchanged, and whose asset quantity equals the
consumed quantity exactly. -/
theorem C5_pause_successor (d : SubscriptionDatum) (ctx : ScriptContext)
    (_hunpaused : d.is_paused = false)
    (hacc : validator d (.PauseResumeSubscription true) ctx = .ok ()) :
    ∃ t inp out,
      ctx.tx_info.valid_range.lowerBoundTime = some t ∧
      ctx.tx_info.inputs.get? 0 = some inp ∧
      ctx.tx_info.outputs.get? 0 = some out ∧
      out.datum = some (.sub (pause_expected_datum d t)) ∧
      pause_expected_datum d t =
        { d with is_paused := true, pause_start_time := ⟨t⟩ } ∧
      amount_of_token_in_output d.payment_token out =
        amount_of_token_in_output d.payment_token inp.resolved := by
  have h : validatePauseResume d true ctx.tx_info = .ok () := by
    unfold validator at hacc
    split at hacc
    · exact hacc
    · exact Except.noConfusion hacc
  obtain ⟨hsig, inp, out, t, hin, hout, ht, hdisj, hq⟩ :=
    validatePauseResume_ok_inversion d true ctx.tx_info h
  rcases hdisj with ⟨-, -, hd⟩ | ⟨hfalse, -, -⟩
  · exact ⟨t, inp, out, ht, hin, hout, hd, rfl, hq.symm⟩
  · exact Bool.noConfusion hfalse

/-- A pause snapshot accepted against baseDatum at lower bound 2000. -/
def C5wCtx : ScriptContext :=
  mkCtx 5000000 5000000 (some (.sub (pause_expected_datum baseDatum 2000))) "m" 2000

theorem C5_pause_successor_witness :
    ∃ t inp out,
      C5wCtx.tx_info.valid_range.lowerBoundTime = some t ∧
      C5wCtx.tx_info.inputs.get? 0 = some inp ∧
      C5wCtx.tx_info.outputs.get? 0 = some out ∧
      out.datum = some (.sub (pause_expected_datum baseDatum t)) ∧
      pause_expected_datum baseDatum t =
        { baseDatum with is_paused := true, pause_start_time := ⟨t⟩ } ∧
      amount_of_token_in_output baseDatum.payment_token out =
        amount_of_token_in_output baseDatum.payment_token inp.resolved :=
  C5_pause_successor baseDatum C5wCtx (by decide) (by decide)

/-- C6: every accepted resume carries a successor output whose datum is the
current datum with is_paused cleared, pause_start_time reset to 0 and
next_payment_date advanced by elapsed = lower bound minus pause_start_time;
resuming exactly 172800000 after the pause start advances next_payment_date
by exactly 172800000. -/
theorem C6_resume_successor (d : SubscriptionDatum) (ctx : ScriptContext)
    (_hpaused : d.is_paused = true)
    (hacc : validator d (.PauseResumeSubscription false) ctx = .ok ()) :
    (∃ t out,
      ctx.tx_info.valid_range.lowerBoundTime = some t ∧
      ctx.tx_info.outputs.get? 0 = some out ∧
      out.datum = some (.sub (resume_expected_datum d t)) ∧
      resume_expected_datum d t =
        { d with
          is_paused := false
          pause_start_time := ⟨0⟩
          next_payment_date :=
            ⟨d.next_payment_date.time + (t - d.pause_start_time.time)⟩ }) ∧
    (resume_expected_datum d
        (d.pause_start_time.time + 172800000)).next_payment_date.time =
      d.next_payment_date.time + 172800000 := by
  have h : validatePauseResume d false ctx.tx_info = .ok () := by
    unfold validator at hacc
    split at hacc
    · exact hacc
    · exact Except.noConfusion hacc
  obtain ⟨hsig, inp, out, t, hin, hout, ht, hdisj, hq⟩ :=
    validatePauseResume_ok_inversion d false ctx.tx_info h
  refine ⟨?_, by simp [resume_expected_datum]⟩
  rcases hdisj with ⟨hfalse, -, -⟩ | ⟨-, -, hd⟩
  · exact Bool.noConfusion hfalse
  · exact ⟨t, out, ht, hout, hd, rfl⟩

/-- A paused datum whose pause started at time 1000, for the C6 witness. -/
def C6d : SubscriptionDatum :=
  { baseDatum with is_paused := true, pause_start_time := ⟨1000⟩ }

/-- A resume snapshot for C6d exactly 172800000 after the pause start. -/
def C6wCtx : ScriptContext :=
  mkCtx 5000000 5000000 (some (.sub (resume_expected_datum C6d 172801000))) "m" 172801000

theorem C6_resume_successor_witness :
    (∃ t out,
      C6wCtx.tx_info.valid_range.lowerBoundTime = some t ∧
      C6wCtx.tx_info.outputs.get? 0 = some out ∧
      out.datum = some (.sub (resume_expected_datum C6d t)) ∧
      resume_expected_datum C6d t =
        { C6d with
          is_paused := false
          pause_start_time := ⟨0⟩
          next_payment_date :=
            ⟨C6d.next_payment_date.time + (t - C6d.pause_start_time.time)⟩ }) ∧
    (resume_expected_datum C6d
        (C6d.pause_start_time.time + 172800000)).next_payment_date.time =
      C6d.next_payment_date.time + 172800000 :=
  C6_resume_successor C6d C6wCtx (by decide) (by decide)

/-- A paused datum for the C7 counterexample. -/
def C7d : SubscriptionDatum :=
  { baseDatum with is_paused := true, pause_start_time := ⟨1000⟩ }

/-- A pause attempt on a paused datum without the model-owner signature. -/
def C7cexCtx : ScriptContext := mkCtx 5000000 5000000 none "x" 2000

/-- C7 counterexample: a snapshot attempting to pause an already paused
datum is rejected, but with reason MissingModelOwnerSignature rather than
AlreadyPaused, because the signature guard fires first. -/
theorem C7_reason_differs :
    C7d.is_paused = true ∧
    validator C7d (.PauseResumeSubscription true) C7cexCtx =
      .error .MissingModelOwnerSignature ∧
    validator C7d (.PauseResumeSubscription true) C7cexCtx ≠
      .error .AlreadyPaused := by decide

/-- C7 amended: pausing a paused datum is never accepted and resuming an
unpaused datum is never accepted, for all field values; the reason is
AlreadyPaused respectively NotPaused whenever the guards preceding the
pause check pass (spend purpose, model-owner signature, first input and
output present, finite lower bound). -/
theorem C7_pause_resume_guards (d : SubscriptionDatum) (ctx : ScriptContext) :
    (d.is_paused = true →
      validator d (.PauseResumeSubscription true) ctx ≠ .ok ()) ∧
    (d.is_paused = true → ctx.purpose = ScriptPurpose.Spending →
      d.model_owner_pubkeyhash ∈ ctx.tx_info.signatories →
      (∃ inp, ctx.tx_info.inputs.get? 0 = some inp) →
      (∃ out, ctx.tx_info.outputs.get? 0 = some out) →
      (∃ t, ctx.tx_info.valid_range.lowerBoundTime = some t) →
      validator d (.PauseResumeSubscription true) ctx = .error .AlreadyPaused) ∧
    (d.is_paused = false →
      validator d (.PauseResumeSubscription false) ctx ≠ .ok ()) ∧
    (d.is_paused = false → ctx.purpose = ScriptPurpose.Spending →
      d.model_owner_pubkeyhash ∈ ctx.tx_info.signatories →
      (∃ inp, ctx.tx_info.inputs.get? 0 = some inp) →
      (∃ out, ctx.tx_info.outputs.get? 0 = some out) →
      (∃ t, ctx.tx_info.valid_range.lowerBoundTime = some t) →
      validator d (.PauseResumeSubscription false) ctx = .error .NotPaused) := by
  refine ⟨?_, ?_, ?_, ?_⟩
  · intro hp hacc
    have h : validatePauseResume d true ctx.tx_info = .ok () := by
      unfold validator at hacc
      split at hacc
      · exact hacc
      · exact Except.noConfusion hacc
    obtain ⟨-, _, _, _, -, -, -, hdisj, -⟩ :=
      validatePauseResume_ok_inversion d true ctx.tx_info h
    rcases hdisj with ⟨-, hnp, -⟩ | ⟨hfalse, -, -⟩
    · rw [hp] at hnp
      exact Bool.noConfusion hnp
    · exact Bool.noConfusion hfalse
  · intro hp hsp hsig hin hout ht
    obtain ⟨inp, hin⟩ := hin
    obtain ⟨out, hout⟩ := hout
    obtain ⟨t, ht⟩ := ht
    rw [List.get?_eq_getElem?] at hin hout
    simp [validator, validatePauseResume, hsp, hsig, hin, hout, ht, hp]
  · intro hp hacc
    have h : validatePauseResume d false ctx.tx_info = .ok () := by
      unfold validator at hacc
      split at hacc
      · exact hacc
      · exact Except.noConfusion hacc
    obtain ⟨-, _, _, _, -, -, -, hdisj, -⟩ :=
      validatePauseResume_ok_inversion d false ctx.tx_info h
    rcases hdisj with ⟨hfalse, -, -⟩ | ⟨-, hpp, -⟩
    · exact Bool.noConfusion hfalse
    · rw [hp] at hpp
      exact Bool.noConfusion hpp
  · intro hp hsp hsig hin hout ht
    obtain ⟨inp, hin⟩ := hin
    obtain ⟨out, hout⟩ := hout
    obtain ⟨t, ht⟩ := ht
    rw [List.get?_eq_getElem?] at hin hout
    simp [validator, validatePauseResume, hsp, hsig, hin, hout, ht, hp]

/-- A fully guarded pause attempt on the paused datum C7d. -/
def C7wCtx : ScriptContext := mkCtx 5000000 5000000 none "m" 2000

theorem C7_pause_resume_guards_witness :
    validator C7d (.PauseResumeSubscription true) C7wCtx = .error .AlreadyPaused :=
  (C7_pause_resume_guards C7d C7wCtx).2.1 (by decide) (by decide) (by decide)
    ⟨⟨tokenOut 5000000 none⟩, by decide⟩ ⟨tokenOut 5000000 none, by decide⟩
    ⟨2000, by decide⟩

/-- The snapshot with a signature added in front of the signer list. -/
def addSig (h : PubKeyHash) (ctx : ScriptContext) : ScriptContext :=
  { ctx with tx_info :=
      { ctx.tx_info with signatories := h :: ctx.tx_info.signatories } }

/-- The snapshot with every occurrence of a signature removed. -/
def removeSig (h : PubKeyHash) (ctx : ScriptContext) : ScriptContext :=
  { ctx with tx_info :=
      { ctx.tx_info with
        signatories := ctx.tx_info.signatories.filter (fun x => x ≠ h) } }

theorem mem_cons_other {a b : PubKeyHash} {s : List PubKeyHash} (h : a ≠ b) :
    a ∈ b :: s ↔ a ∈ s := by
  simp [List.mem_cons, h]

theorem mem_filter_ne {a b : PubKeyHash} {s : List PubKeyHash} (h : a ≠ b) :
    a ∈ s.filter (fun x => x ≠ b) ↔ a ∈ s := by
  simp [List.mem_filter, h]

/-- The update branch reads the signer list only through the owner
membership test. -/
theorem validateUpdate_signers_congr (d : SubscriptionDatum)
    (ins : List TxInInfo) (outs : List TxOut) (s1 s2 : List PubKeyHash)
    (vr : POSIXTimeRange)
    (howner : d.owner_pubkeyhash ∈ s1 ↔ d.owner_pubkeyhash ∈ s2) :
    validateUpdate d ⟨ins, outs, s1, vr⟩ = validateUpdate d ⟨ins, outs, s2, vr⟩ := by
  unfold validateUpdate
  exact if_congr howner rfl rfl

/-- The unlock branch reads the signer list only through the model-owner
membership test. -/
theorem validateUnlock_signers_congr (d : SubscriptionDatum) (ii oi : Nat)
    (ins : List TxInInfo) (outs : List TxOut) (s1 s2 : List PubKeyHash)
    (vr : POSIXTimeRange)
    (hmodel : d.model_owner_pubkeyhash ∈ s1 ↔ d.model_owner_pubkeyhash ∈ s2) :
    validateUnlock d ii oi ⟨ins, outs, s1, vr⟩ =
      validateUnlock d ii oi ⟨ins, outs, s2, vr⟩ := by
  unfold validateUnlock
  dsimp only
  cases ins.get? ii with
  | none => rfl
  | some inp =>
    cases outs.get? oi with
    | none => rfl
    | some out => exact if_congr hmodel rfl rfl

/-- The pause and resume branch reads the signer list only through the
model-owner membership test. -/
theorem validatePauseResume_signers_congr (d : SubscriptionDatum) (p : Bool)
    (ins : List TxInInfo) (outs : List TxOut) (s1 s2 : List PubKeyHash)
    (vr : POSIXTimeRange)
    (hmodel : d.model_owner_pubkeyhash ∈ s1 ↔ d.model_owner_pubkeyhash ∈ s2) :
    validatePauseResume d p ⟨ins, outs, s1, vr⟩ =
      validatePauseResume d p ⟨ins, outs, s2, vr⟩ := by
  unfold validatePauseResume
  dsimp only
  exact if_congr hmodel rfl rfl

/-- A datum whose owner and model owner are the same key hash. -/
def C4d : SubscriptionDatum := { baseDatum with owner_pubkeyhash := "m" }

/-- A spending snapshot signed by that single key hash. -/
def C4cexCtx : ScriptContext := mkCtx 5000000 5000000 none "m" 0

/-- C4 counterexample: when the owner hash and the model-owner hash
coincide, removing the model-owner signature changes the UpdateSubscription
verdict from acceptance to rejection, refuting the unrestricted invariance
part of the claim. -/
theorem C4_shared_key_counterexample :
    C4d.owner_pubkeyhash = C4d.model_owner_pubkeyhash ∧
    validator C4d .UpdateSubscription C4cexCtx = .ok () ∧
    validator C4d .UpdateSubscription
      (removeSig C4d.model_owner_pubkeyhash C4cexCtx) =
      .error .MissingOwnerSignature := by decide

/-- C4 amended: for distinct owner and model-owner hashes and a spending
snapshot, UpdateSubscription is accepted exactly when the owner signed and
its verdict ignores adding or removing the model-owner signature, while
UnlockPayment and PauseResumeSubscription are accepted only when the model
owner signed and their verdicts ignore adding or removing the owner
signature. -/
theorem C4_authority_separation (d : SubscriptionDatum) (ctx : ScriptContext)
    (hne : d.owner_pubkeyhash ≠ d.model_owner_pubkeyhash)
    (hsp : ctx.purpose = ScriptPurpose.Spending) :
    (validator d .UpdateSubscription ctx = .ok () ↔
      d.owner_pubkeyhash ∈ ctx.tx_info.signatories) ∧
    (validator d .UpdateSubscription (addSig d.model_owner_pubkeyhash ctx) =
      validator d .UpdateSubscription ctx) ∧
    (validator d .UpdateSubscription (removeSig d.model_owner_pubkeyhash ctx) =
      validator d .UpdateSubscription ctx) ∧
    (∀ ii oi, validator d (.UnlockPayment ii oi) ctx = .ok () →
      d.model_owner_pubkeyhash ∈ ctx.tx_info.signatories) ∧
    (∀ p, validator d (.PauseResumeSubscription p) ctx = .ok () →
      d.model_owner_pubkeyhash ∈ ctx.tx_info.signatories) ∧
    (∀ ii oi,
      validator d (.UnlockPayment ii oi) (addSig d.owner_pubkeyhash ctx) =
        validator d (.UnlockPayment ii oi) ctx ∧
      validator d (.UnlockPayment ii oi) (removeSig d.owner_pubkeyhash ctx) =
        validator d (.UnlockPayment ii oi) ctx) ∧
    (∀ p,
      validator d (.PauseResumeSubscription p) (addSig d.owner_pubkeyhash ctx) =
        validator d (.PauseResumeSubscription p) ctx ∧
      validator d (.PauseResumeSubscription p) (removeSig d.owner_pubkeyhash ctx) =
        validator d (.PauseResumeSubscription p) ctx) := by
  obtain ⟨⟨ins, outs, s, vr⟩, pu⟩ := ctx
  simp only at hsp
  subst hsp
  have hne' : d.model_owner_pubkeyhash ≠ d.owner_pubkeyhash := fun h => hne h.symm
  refine ⟨?_, ?_, ?_, ?_, ?_, ?_, ?_⟩
  · show validateUpdate d ⟨ins, outs, s, vr⟩ = .ok () ↔ _
    unfold validateUpdate
    split
    · rename_i hmem
      simpa using hmem
    · rename_i hmem
      simp [hmem]
  · show validateUpdate d ⟨ins, outs, d.model_owner_pubkeyhash :: s, vr⟩ =
      validateUpdate d ⟨ins, outs, s, vr⟩
    exact validateUpdate_signers_congr d ins outs _ s vr (mem_cons_other hne)
  · show validateUpdate d
        ⟨ins, outs, s.filter (fun x => x ≠ d.model_owner_pubkeyhash), vr⟩ =
      validateUpdate d ⟨ins, outs, s, vr⟩
    exact validateUpdate_signers_congr d ins outs _ s vr (mem_filter_ne hne)
  · intro ii oi hacc
    have h : validateUnlock d ii oi ⟨ins, outs, s, vr⟩ = .ok () := hacc
    unfold validateUnlock at h
    split at h
    · exact Except.noConfusion h
    · split at h
      · exact Except.noConfusion h
      · split at h
        · rename_i hsig
          exact hsig
        · exact Except.noConfusion h
  · intro p hacc
    have h : validatePauseResume d p ⟨ins, outs, s, vr⟩ = .ok () := hacc
    unfold validatePauseResume at h
    split at h
    · rename_i hsig
      exact hsig
    · exact Except.noConfusion h
  · intro ii oi
    constructor
    · show validateUnlock d ii oi ⟨ins, outs, d.owner_pubkeyhash :: s, vr⟩ =
        validateUnlock d ii oi ⟨ins, outs, s, vr⟩
      exact validateUnlock_signers_congr d ii oi ins outs _ s vr (mem_cons_other hne')
    · show validateUnlock d ii oi
          ⟨ins, outs, s.filter (fun x => x ≠ d.owner_pubkeyhash), vr⟩ =
        validateUnlock d ii oi ⟨ins, outs, s, vr⟩
      exact validateUnlock_signers_congr d ii oi ins outs _ s vr (mem_filter_ne hne')
  · intro p
    constructor
    · show validatePauseResume d p ⟨ins, outs, d.owner_pubkeyhash :: s, vr⟩ =
        validatePauseResume d p ⟨ins, outs, s, vr⟩
      exact validatePauseResume_signers_congr d p ins outs _ s vr (mem_cons_other hne')
    · show validatePauseResume d p
          ⟨ins, outs, s.filter (fun x => x ≠ d.owner_pubkeyhash), vr⟩ =
        validatePauseResume d p ⟨ins, outs, s, vr⟩
      exact validatePauseResume_signers_congr d p ins outs _ s vr (mem_filter_ne hne')

/-- A spending snapshot signed by the owner only. -/
def C4wCtx : ScriptContext := mkCtx 5000000 5000000 none "o" 0

theorem C4_authority_separation_witness :
    validator baseDatum .UpdateSubscription C4wCtx = .ok () ↔
      baseDatum.owner_pubkeyhash ∈ C4wCtx.tx_info.signatories :=
  (C4_authority_separation baseDatum C4wCtx (by decide) (by decide)).1

/-- C9: the pause and resume verdict depends only on the signer list, the
validity interval, the first input and the first output: two snapshots of
the same purpose agreeing on those get the same verdict, whatever their
other inputs and outputs are. -/
theorem C9_pause_resume_locality (d : SubscriptionDatum) (p : Bool)
    (ctx1 ctx2 : ScriptContext)
    (hpu : ctx1.purpose = ctx2.purpose)
    (hsig : ctx1.tx_info.signatories = ctx2.tx_info.signatories)
    (hvr : ctx1.tx_info.valid_range = ctx2.tx_info.valid_range)
    (hin : ctx1.tx_info.inputs.get? 0 = ctx2.tx_info.inputs.get? 0)
    (hout : ctx1.tx_info.outputs.get? 0 = ctx2.tx_info.outputs.get? 0) :
    validator d (.PauseResumeSubscription p) ctx1 =
      validator d (.PauseResumeSubscription p) ctx2 := by
  obtain ⟨⟨ins1, outs1, s1, vr1⟩, pu1⟩ := ctx1
  obtain ⟨⟨ins2, outs2, s2, vr2⟩, pu2⟩ := ctx2
  simp only at hpu hsig hvr hin hout
  subst hpu hsig hvr
  unfold validator
  split
  · show validatePauseResume d p ⟨ins1, outs1, s1, vr1⟩ =
      validatePauseResume d p ⟨ins2, outs2, s1, vr1⟩
    unfold validatePauseResume
    dsimp only
    apply if_congr Iff.rfl _ rfl
    rw [hin, hout]
    rfl
  · rfl

/-- A pause snapshot for the C9 witness. -/
def C9ctx1 : ScriptContext :=
  mkCtx 5000000 5000000 (some (.sub (pause_expected_datum baseDatum 2000))) "m" 2000

/-- The same snapshot with an extra unrelated output appended. -/
def C9ctx2 : ScriptContext :=
  { C9ctx1 with tx_info :=
      { C9ctx1.tx_info with
        outputs := C9ctx1.tx_info.outputs ++ [tokenOut 7 none] } }

theorem C9_pause_resume_locality_witness :
    validator baseDatum (.PauseResumeSubscription true) C9ctx1 =
      validator baseDatum (.PauseResumeSubscription true) C9ctx2 :=
  C9_pause_resume_locality baseDatum true C9ctx1 C9ctx2
    (by decide) (by decide) (by decide) (by decide) (by decide)

end Onchain
